import Mathlib

/-!
Verification of the VIME core: the braille character-cell plotting engine
(`src/python/plotter.py`) and the dual-backend HDF5 table access layer
(`src/python/data_loader.py`), embedded shallowly in Lean.

Numbers that are Python floats in the source are modelled as exact rationals
(`ℚ`); Python ints are `ℤ`/`ℕ`.  Python lists are Lean lists.  Exceptions are
modelled with `Option`/`Except`.
-/

attribute [local semireducible] Rat.add Rat.mul Rat.inv Rat.sub Rat.ofScientific

namespace VIME

/-! ### Small list helpers (getD over set) -/

theorem getD_set_self {α : Type} (l : List α) (i : Nat) (a d : α)
    (h : i < l.length) : (l.set i a).getD i d = a := by
  simp [List.getD_eq_getElem?_getD, List.getElem?_set_self h]

theorem getD_set_ne {α : Type} (l : List α) (i j : Nat) (a d : α)
    (h : i ≠ j) : (l.set i a).getD j d = l.getD j d := by
  simp [List.getD_eq_getElem?_getD, List.getElem?_set_ne h]

/-! ### BrailleCanvas (src/python/plotter.py, lines 10-71)

`BRAILLE_MAP[dx][dy]` is the dot bit for sub-pixel `(dx, dy)` inside a cell. -/

def BRAILLE_MAP : List (List Nat) :=
  [[0x01, 0x02, 0x04, 0x40],
   [0x08, 0x10, 0x20, 0x80]]

structure BrailleCanvas where
  char_width : Nat
  char_height : Nat
  cells : List (List Nat)
  deriving Repr, DecidableEq

/-- `BrailleCanvas.__init__`: all cells cleared to mask 0. -/
def BrailleCanvas.create (width height : Nat) : BrailleCanvas :=
  { char_width := width
    char_height := height
    cells := List.replicate height (List.replicate width 0) }

def BrailleCanvas.pixel_width (c : BrailleCanvas) : Int := (c.char_width : Int) * 2

def BrailleCanvas.pixel_height (c : BrailleCanvas) : Int := (c.char_height : Int) * 4

/-- `BrailleCanvas.set_pixel`: bounds-guarded; `//` and `%` on the guarded
(non-negative) coordinates agree with Python's floor semantics. -/
def BrailleCanvas.set_pixel (c : BrailleCanvas) (px py : Int) : BrailleCanvas :=
  if px < 0 ∨ px ≥ c.pixel_width ∨ py < 0 ∨ py ≥ c.pixel_height then c
  else
    let cx := (px / 2).toNat
    let cy := (py / 4).toNat
    let bit := (BRAILLE_MAP.getD (px % 2).toNat []).getD (py % 4).toNat 0
    let row := c.cells.getD cy []
    { c with cells := c.cells.set cy (row.set cx (row.getD cx 0 ||| bit)) }

/-- Observation: is the dot at sub-pixel `(px, py)` set?  (Reads the same bit
`set_pixel` writes; out-of-bounds reads as `false`.) -/
def BrailleCanvas.getPixel (c : BrailleCanvas) (px py : Int) : Bool :=
  if px < 0 ∨ px ≥ c.pixel_width ∨ py < 0 ∨ py ≥ c.pixel_height then false
  else
    let bit := (BRAILLE_MAP.getD (px % 2).toNat []).getD (py % 4).toNat 0
    decide (((c.cells.getD (py / 4).toNat []).getD (px / 2).toNat 0) &&& bit ≠ 0)

/-- The loop body of `BrailleCanvas.line` (lines 54-64), with explicit fuel.
The chosen fuel in `line` strictly exceeds the number of iterations the
while-loop performs (proved below: each iteration moves at least one step
toward the target and never overshoots). -/
def lineAux (x1 y1 sx sy dx dy : Int) :
    Nat → Int → Int → Int → BrailleCanvas → BrailleCanvas
  | 0, _, _, _, c => c
  | fuel + 1, x0, y0, err, c =>
    let c1 := c.set_pixel x0 y0
    if x0 = x1 ∧ y0 = y1 then c1
    else
      let e2 := 2 * err
      let err1 := if e2 > -dy then err - dy else err
      let x0' := if e2 > -dy then x0 + sx else x0
      let err2 := if e2 < dx then err1 + dx else err1
      let y0' := if e2 < dx then y0 + sy else y0
      lineAux x1 y1 sx sy dx dy fuel x0' y0' err2 c1

/-- `BrailleCanvas.line` (lines 46-64): Bresenham on the sub-pixel grid. -/
def BrailleCanvas.line (c : BrailleCanvas) (x0 y0 x1 y1 : Int) : BrailleCanvas :=
  let dx := |x1 - x0|
  let dy := |y1 - y0|
  let sx : Int := if x0 < x1 then 1 else -1
  let sy : Int := if y0 < y1 then 1 else -1
  lineAux x1 y1 sx sy dx dy (dx + dy + 1).toNat x0 y0 (dx - dy) c

/-- `BrailleCanvas.render` (lines 66-71). -/
def BrailleCanvas.render (c : BrailleCanvas) : List String :=
  c.cells.map (fun row => String.mk (row.map (fun cell => Char.ofNat (0x2800 + cell))))

/-- The canvas shape invariant established by `create`: the cell grid really is
`char_height` rows of `char_width` masks. -/
def BrailleCanvas.Wf (c : BrailleCanvas) : Prop :=
  c.cells.length = c.char_height ∧
    ∀ i, i < c.char_height → (c.cells.getD i []).length = c.char_width

instance : DecidablePred BrailleCanvas.Wf := by
  intro c
  unfold BrailleCanvas.Wf
  infer_instance

/-! ### Bitmask lemmas for `set_pixel`/`getPixel` -/

theorem or_and_ne_zero (m b : Nat) (hb : b ≠ 0) : (m ||| b) &&& b ≠ 0 := by
  intro h0
  apply hb
  apply Nat.eq_of_testBit_eq
  intro i
  have h1 := congrArg (fun t => Nat.testBit t i) h0
  simp only [Nat.testBit_and, Nat.testBit_or, Nat.zero_testBit] at h1
  simp only [Nat.zero_testBit]
  cases hbi : b.testBit i with
  | false => rfl
  | true => rw [hbi] at h1; simp at h1

theorem or_and_ne_zero_of_and_ne_zero (m b x : Nat) (h : m &&& x ≠ 0) :
    (m ||| b) &&& x ≠ 0 := by
  intro h0
  apply h
  apply Nat.eq_of_testBit_eq
  intro i
  have h1 := congrArg (fun t => Nat.testBit t i) h0
  simp only [Nat.testBit_and, Nat.testBit_or, Nat.zero_testBit] at h1
  simp only [Nat.testBit_and, Nat.zero_testBit]
  cases hmi : m.testBit i with
  | false => simp
  | true => rw [hmi] at h1; simp at h1; simp [h1]

theorem braille_bit_ne_zero :
    ∀ d, d < 2 → ∀ e, e < 4 → (BRAILLE_MAP.getD d []).getD e 0 ≠ 0 := by decide

/-! ### `set_pixel` preserves shape; self/mono pixel lemmas -/

theorem set_pixel_char_width (c : BrailleCanvas) (px py : Int) :
    (c.set_pixel px py).char_width = c.char_width := by
  unfold BrailleCanvas.set_pixel
  split <;> rfl

theorem set_pixel_char_height (c : BrailleCanvas) (px py : Int) :
    (c.set_pixel px py).char_height = c.char_height := by
  unfold BrailleCanvas.set_pixel
  split <;> rfl

theorem set_pixel_pixel_width (c : BrailleCanvas) (px py : Int) :
    (c.set_pixel px py).pixel_width = c.pixel_width := by
  unfold BrailleCanvas.pixel_width
  rw [set_pixel_char_width]

theorem set_pixel_pixel_height (c : BrailleCanvas) (px py : Int) :
    (c.set_pixel px py).pixel_height = c.pixel_height := by
  unfold BrailleCanvas.pixel_height
  rw [set_pixel_char_height]

theorem set_pixel_wf (c : BrailleCanvas) (px py : Int) (hwf : c.Wf) :
    (c.set_pixel px py).Wf := by
  unfold BrailleCanvas.set_pixel
  split
  · exact hwf
  · obtain ⟨hlen, hrow⟩ := hwf
    refine ⟨by simpa using hlen, ?_⟩
    intro i hi
    simp only
    by_cases hcy : (py / 4).toNat = i
    · subst hcy
      by_cases hlt : (py / 4).toNat < c.cells.length
      · rw [getD_set_self _ _ _ _ hlt, List.length_set]
        exact hrow _ hi
      · rw [List.set_eq_of_length_le (by omega)]
        exact hrow _ hi
    · rw [getD_set_ne _ _ _ _ _ hcy]
      exact hrow _ hi

theorem getPixel_set_pixel_self (c : BrailleCanvas) (px py : Int) (hwf : c.Wf)
    (h1 : 0 ≤ px) (h2 : px < c.pixel_width) (h3 : 0 ≤ py) (h4 : py < c.pixel_height) :
    (c.set_pixel px py).getPixel px py = true := by
  obtain ⟨hlen, hrow⟩ := hwf
  have hguard : ¬(px < 0 ∨ px ≥ c.pixel_width ∨ py < 0 ∨ py ≥ c.pixel_height) := by
    push_neg
    exact ⟨h1, h2, h3, h4⟩
  have hpw : px < (c.char_width : Int) * 2 := h2
  have hph : py < (c.char_height : Int) * 4 := h4
  have hcy : (py / 4).toNat < c.cells.length := by rw [hlen]; omega
  have hcxlen : ((c.cells.getD (py / 4).toNat []).length = c.char_width) :=
    hrow _ (by omega)
  have hcx : (px / 2).toNat < (c.cells.getD (py / 4).toNat []).length := by
    rw [hcxlen]; omega
  rw [BrailleCanvas.set_pixel, if_neg hguard]
  rw [BrailleCanvas.getPixel]
  rw [if_neg (by
    rw [show (({ c with
        cells := c.cells.set (py / 4).toNat
          ((c.cells.getD (py / 4).toNat []).set (px / 2).toNat
            ((c.cells.getD (py / 4).toNat []).getD (px / 2).toNat 0 |||
              (BRAILLE_MAP.getD (px % 2).toNat []).getD (py % 4).toNat 0)) } :
        BrailleCanvas).pixel_width) = c.pixel_width from rfl]
    rw [show (({ c with
        cells := c.cells.set (py / 4).toNat
          ((c.cells.getD (py / 4).toNat []).set (px / 2).toNat
            ((c.cells.getD (py / 4).toNat []).getD (px / 2).toNat 0 |||
              (BRAILLE_MAP.getD (px % 2).toNat []).getD (py % 4).toNat 0)) } :
        BrailleCanvas).pixel_height) = c.pixel_height from rfl]
    exact hguard)]
  simp only [decide_eq_true_eq]
  rw [getD_set_self _ _ _ _ hcy, getD_set_self _ _ _ _ hcx]
  exact or_and_ne_zero _ _ (braille_bit_ne_zero _ (by omega) _ (by omega))

theorem getPixel_set_pixel_mono (c : BrailleCanvas) (px py qx qy : Int)
    (h : c.getPixel qx qy = true) : (c.set_pixel px py).getPixel qx qy = true := by
  rw [BrailleCanvas.getPixel] at h
  by_cases hq : qx < 0 ∨ qx ≥ c.pixel_width ∨ qy < 0 ∨ qy ≥ c.pixel_height
  · rw [if_pos hq] at h; exact absurd h (by simp)
  · rw [if_neg hq] at h
    simp only [decide_eq_true_eq] at h
    rw [BrailleCanvas.set_pixel]
    split
    · rw [BrailleCanvas.getPixel, if_neg hq]
      simp only [decide_eq_true_eq]
      exact h
    · rw [BrailleCanvas.getPixel]
      rw [if_neg (by exact hq)]
      simp only [decide_eq_true_eq]
      by_cases hcy : (py / 4).toNat = (qy / 4).toNat
      · by_cases hcx : (px / 2).toNat = (qx / 2).toNat
        · rw [hcy, hcx]
          by_cases hylt : (qy / 4).toNat < c.cells.length
          · rw [getD_set_self _ _ _ _ hylt]
            by_cases hxlt : (qx / 2).toNat < (c.cells.getD (qy / 4).toNat []).length
            · rw [getD_set_self _ _ _ _ hxlt]
              exact or_and_ne_zero_of_and_ne_zero _ _ _ h
            · rw [List.set_eq_of_length_le (by omega)]
              exact h
          · rw [List.set_eq_of_length_le (by omega)]
            exact h
        · rw [hcy]
          by_cases hylt : (qy / 4).toNat < c.cells.length
          · rw [getD_set_self _ _ _ _ hylt, getD_set_ne _ _ _ _ _ hcx]
            exact h
          · rw [List.set_eq_of_length_le (by omega)]
            exact h
      · rw [getD_set_ne _ _ _ _ _ hcy]
        exact h

/-! ### Bresenham loop lemmas -/

theorem lineAux_char_dims (x1 y1 sx sy dx dy : Int) :
    ∀ (fuel : Nat) (x0 y0 err : Int) (c : BrailleCanvas),
      (lineAux x1 y1 sx sy dx dy fuel x0 y0 err c).char_width = c.char_width ∧
      (lineAux x1 y1 sx sy dx dy fuel x0 y0 err c).char_height = c.char_height := by
  intro fuel
  induction fuel with
  | zero => intro x0 y0 err c; exact ⟨rfl, rfl⟩
  | succ n ih =>
    intro x0 y0 err c
    simp only [lineAux]
    split
    · exact ⟨set_pixel_char_width c x0 y0, set_pixel_char_height c x0 y0⟩
    · obtain ⟨ha, hb⟩ := ih _ _ _ (c.set_pixel x0 y0)
      rw [ha, hb]
      exact ⟨set_pixel_char_width c x0 y0, set_pixel_char_height c x0 y0⟩

theorem lineAux_wf (x1 y1 sx sy dx dy : Int) :
    ∀ (fuel : Nat) (x0 y0 err : Int) (c : BrailleCanvas), c.Wf →
      (lineAux x1 y1 sx sy dx dy fuel x0 y0 err c).Wf := by
  intro fuel
  induction fuel with
  | zero => intro x0 y0 err c hwf; exact hwf
  | succ n ih =>
    intro x0 y0 err c hwf
    simp only [lineAux]
    split
    · exact set_pixel_wf c x0 y0 hwf
    · exact ih _ _ _ _ (set_pixel_wf c x0 y0 hwf)

theorem lineAux_mono (x1 y1 sx sy dx dy : Int) :
    ∀ (fuel : Nat) (x0 y0 err : Int) (c : BrailleCanvas) (qx qy : Int),
      c.getPixel qx qy = true →
      (lineAux x1 y1 sx sy dx dy fuel x0 y0 err c).getPixel qx qy = true := by
  intro fuel
  induction fuel with
  | zero => intro x0 y0 err c qx qy h; exact h
  | succ n ih =>
    intro x0 y0 err c qx qy h
    simp only [lineAux]
    split
    · exact getPixel_set_pixel_mono c x0 y0 qx qy h
    · exact ih _ _ _ _ _ _ (getPixel_set_pixel_mono c x0 y0 qx qy h)

/-- The while loop of `line` reaches and sets the target pixel.  The invariant
relates the error accumulator to the remaining step counts
`u = sx*(x1-x0)`, `v = sy*(y1-y0)` and shows the loop never overshoots. -/
theorem lineAux_sets_target (x1 y1 sx sy dx dy : Int)
    (hsx : sx = 1 ∨ sx = -1) (hsy : sy = 1 ∨ sy = -1) :
    ∀ (fuel : Nat) (x0 y0 err : Int) (c : BrailleCanvas),
      c.Wf →
      0 ≤ x1 → x1 < c.pixel_width → 0 ≤ y1 → y1 < c.pixel_height →
      0 ≤ sx * (x1 - x0) → sx * (x1 - x0) ≤ dx →
      0 ≤ sy * (y1 - y0) → sy * (y1 - y0) ≤ dy →
      err = dx - dy + dy * (sx * (x1 - x0)) - dx * (sy * (y1 - y0)) →
      (sx * (x1 - x0) + sy * (y1 - y0)).toNat < fuel →
      (lineAux x1 y1 sx sy dx dy fuel x0 y0 err c).getPixel x1 y1 = true := by
  intro fuel
  induction fuel with
  | zero =>
    intro x0 y0 err c _ _ _ _ _ _ _ _ _ _ hfuel
    omega
  | succ n ih =>
    intro x0 y0 err c hwf hx1a hx1b hy1a hy1b hu0 hud hv0 hvd herr hfuel
    have hsx2 : sx * sx = 1 := by rcases hsx with h | h <;> rw [h] <;> norm_num
    have hsy2 : sy * sy = 1 := by rcases hsy with h | h <;> rw [h] <;> norm_num
    have hsxne : sx ≠ 0 := by rcases hsx with h | h <;> rw [h] <;> norm_num
    have hsyne : sy ≠ 0 := by rcases hsy with h | h <;> rw [h] <;> norm_num
    have hdx0 : 0 ≤ dx := le_trans hu0 hud
    have hdy0 : 0 ≤ dy := le_trans hv0 hvd
    simp only [lineAux]
    split
    · next htgt =>
      obtain ⟨hx, hy⟩ := htgt
      subst hx; subst hy
      exact getPixel_set_pixel_self c x0 y0 hwf hx1a hx1b hy1a hy1b
    · next htgt =>
      -- not at the target yet: at least one of u, v is ≥ 1
      have huv1 : 1 ≤ sx * (x1 - x0) + sy * (y1 - y0) := by
        by_contra hc
        push_neg at hc
        have hu : sx * (x1 - x0) = 0 := by omega
        have hv : sy * (y1 - y0) = 0 := by omega
        have hx : x1 - x0 = 0 := by
          rcases mul_eq_zero.mp hu with h | h
          · exact absurd h hsxne
          · exact h
        have hy : y1 - y0 = 0 := by
          rcases mul_eq_zero.mp hv with h | h
          · exact absurd h hsyne
          · exact h
        exact htgt ⟨by omega, by omega⟩
      have hwf1 := set_pixel_wf c x0 y0 hwf
      have hpw1 : (c.set_pixel x0 y0).pixel_width = c.pixel_width :=
        set_pixel_pixel_width c x0 y0
      have hph1 : (c.set_pixel x0 y0).pixel_height = c.pixel_height :=
        set_pixel_pixel_height c x0 y0
      -- the x-condition never fires once x0 has reached x1 (no overshoot)
      have hstepX : -dy < 2 * err → 1 ≤ sx * (x1 - x0) := by
        intro hX
        by_contra hc
        push_neg at hc
        have hu : sx * (x1 - x0) = 0 := by omega
        have hv1 : 1 ≤ sy * (y1 - y0) := by omega
        rw [hu] at herr
        have hdxv : dx ≤ dx * (sy * (y1 - y0)) := by
          have := mul_nonneg hdx0 (by linarith : (0:ℤ) ≤ sy * (y1 - y0) - 1)
          nlinarith
        omega
      -- the y-condition never fires once y0 has reached y1 (no overshoot)
      have hstepY : 2 * err < dx → 1 ≤ sy * (y1 - y0) := by
        intro hY
        by_contra hc
        push_neg at hc
        have hv : sy * (y1 - y0) = 0 := by omega
        have hu1 : 1 ≤ sx * (x1 - x0) := by omega
        rw [hv] at herr
        have hdyu : dy ≤ dy * (sx * (x1 - x0)) := by
          have := mul_nonneg hdy0 (by linarith : (0:ℤ) ≤ sx * (x1 - x0) - 1)
          nlinarith
        omega
      -- at least one of the two conditions fires
      have hfire : -dy < 2 * err ∨ 2 * err < dx := by
        by_contra hc
        push_neg at hc
        obtain ⟨h1, h2⟩ := hc
        have : dx + dy ≤ 0 := by omega
        omega
      by_cases hX : -dy < 2 * err <;> by_cases hY : 2 * err < dx
      · -- both step
        have hux : 1 ≤ sx * (x1 - x0) := hstepX hX
        have hvy : 1 ≤ sy * (y1 - y0) := hstepY hY
        simp only [gt_iff_lt, if_pos hX, if_pos hY]
        apply ih (x0 + sx) (y0 + sy) (err - dy + dx) _ hwf1 hx1a (by rw [hpw1]; exact hx1b)
          hy1a (by rw [hph1]; exact hy1b)
        · have : sx * (x1 - (x0 + sx)) = sx * (x1 - x0) - sx * sx := by ring
          rw [this, hsx2]; omega
        · have : sx * (x1 - (x0 + sx)) = sx * (x1 - x0) - sx * sx := by ring
          rw [this, hsx2]; omega
        · have : sy * (y1 - (y0 + sy)) = sy * (y1 - y0) - sy * sy := by ring
          rw [this, hsy2]; omega
        · have : sy * (y1 - (y0 + sy)) = sy * (y1 - y0) - sy * sy := by ring
          rw [this, hsy2]; omega
        · have h1 : sx * (x1 - (x0 + sx)) = sx * (x1 - x0) - sx * sx := by ring
          have h2 : sy * (y1 - (y0 + sy)) = sy * (y1 - y0) - sy * sy := by ring
          rw [h1, h2, hsx2, hsy2, herr]; ring
        · have h1 : sx * (x1 - (x0 + sx)) = sx * (x1 - x0) - sx * sx := by ring
          have h2 : sy * (y1 - (y0 + sy)) = sy * (y1 - y0) - sy * sy := by ring
          rw [h1, h2, hsx2, hsy2]; omega
      · -- only x steps
        have hux : 1 ≤ sx * (x1 - x0) := hstepX hX
        simp only [gt_iff_lt, if_pos hX, if_neg hY]
        apply ih (x0 + sx) y0 (err - dy) _ hwf1 hx1a (by rw [hpw1]; exact hx1b)
          hy1a (by rw [hph1]; exact hy1b)
        · have : sx * (x1 - (x0 + sx)) = sx * (x1 - x0) - sx * sx := by ring
          rw [this, hsx2]; omega
        · have : sx * (x1 - (x0 + sx)) = sx * (x1 - x0) - sx * sx := by ring
          rw [this, hsx2]; omega
        · exact hv0
        · exact hvd
        · have h1 : sx * (x1 - (x0 + sx)) = sx * (x1 - x0) - sx * sx := by ring
          rw [h1, hsx2, herr]; ring
        · have h1 : sx * (x1 - (x0 + sx)) = sx * (x1 - x0) - sx * sx := by ring
          rw [h1, hsx2]; omega
      · -- only y steps
        have hvy : 1 ≤ sy * (y1 - y0) := hstepY hY
        simp only [gt_iff_lt, if_neg hX, if_pos hY]
        apply ih x0 (y0 + sy) (err + dx) _ hwf1 hx1a (by rw [hpw1]; exact hx1b)
          hy1a (by rw [hph1]; exact hy1b)
        · exact hu0
        · exact hud
        · have : sy * (y1 - (y0 + sy)) = sy * (y1 - y0) - sy * sy := by ring
          rw [this, hsy2]; omega
        · have : sy * (y1 - (y0 + sy)) = sy * (y1 - y0) - sy * sy := by ring
          rw [this, hsy2]; omega
        · have h2 : sy * (y1 - (y0 + sy)) = sy * (y1 - y0) - sy * sy := by ring
          rw [h2, hsy2, herr]; ring
        · have h2 : sy * (y1 - (y0 + sy)) = sy * (y1 - y0) - sy * sy := by ring
          rw [h2, hsy2]; omega
      · exact absurd hfire (by simp [hX, hY])

theorem lineAux_start (x1 y1 sx sy dx dy : Int) (fuel : Nat) (x0 y0 err : Int)
    (c : BrailleCanvas) (hwf : c.Wf)
    (h1 : 0 ≤ x0) (h2 : x0 < c.pixel_width) (h3 : 0 ≤ y0) (h4 : y0 < c.pixel_height) :
    (lineAux x1 y1 sx sy dx dy (fuel + 1) x0 y0 err c).getPixel x0 y0 = true := by
  simp only [lineAux]
  split
  · exact getPixel_set_pixel_self c x0 y0 hwf h1 h2 h3 h4
  · exact lineAux_mono x1 y1 sx sy dx dy fuel _ _ _ _ x0 y0
      (getPixel_set_pixel_self c x0 y0 hwf h1 h2 h3 h4)

theorem line_endpoints_aux (c : BrailleCanvas) (x0 y0 x1 y1 : Int)
    (hwf : c.Wf)
    (ha1 : 0 ≤ x0) (ha2 : x0 < c.pixel_width) (ha3 : 0 ≤ y0) (ha4 : y0 < c.pixel_height)
    (hb1 : 0 ≤ x1) (hb2 : x1 < c.pixel_width) (hb3 : 0 ≤ y1) (hb4 : y1 < c.pixel_height) :
    (c.line x0 y0 x1 y1).getPixel x0 y0 = true ∧
    (c.line x0 y0 x1 y1).getPixel x1 y1 = true := by
  have hsx : (if x0 < x1 then (1:ℤ) else -1) = 1 ∨ (if x0 < x1 then (1:ℤ) else -1) = -1 := by
    by_cases h : x0 < x1 <;> simp [h]
  have hsy : (if y0 < y1 then (1:ℤ) else -1) = 1 ∨ (if y0 < y1 then (1:ℤ) else -1) = -1 := by
    by_cases h : y0 < y1 <;> simp [h]
  have hu : (if x0 < x1 then (1:ℤ) else -1) * (x1 - x0) = |x1 - x0| := by
    by_cases h : x0 < x1
    · rw [if_pos h, one_mul, abs_of_pos (by omega)]
    · rw [if_neg h, abs_of_nonpos (by omega)]; ring
  have hv : (if y0 < y1 then (1:ℤ) else -1) * (y1 - y0) = |y1 - y0| := by
    by_cases h : y0 < y1
    · rw [if_pos h, one_mul, abs_of_pos (by omega)]
    · rw [if_neg h, abs_of_nonpos (by omega)]; ring
  have habs1 : 0 ≤ |x1 - x0| := abs_nonneg _
  have habs2 : 0 ≤ |y1 - y0| := abs_nonneg _
  constructor
  · simp only [BrailleCanvas.line]
    obtain ⟨n, hn⟩ : ∃ n, (|x1 - x0| + |y1 - y0| + 1).toNat = n + 1 := by
      refine ⟨(|x1 - x0| + |y1 - y0|).toNat, ?_⟩
      omega
    rw [hn]
    exact lineAux_start _ _ _ _ _ _ n x0 y0 _ c hwf ha1 ha2 ha3 ha4
  · simp only [BrailleCanvas.line]
    apply lineAux_sets_target x1 y1 _ _ _ _ hsx hsy _ x0 y0 _ c hwf hb1 hb2 hb3 hb4
    · rw [hu]; exact habs1
    · rw [hu]
    · rw [hv]; exact habs2
    · rw [hv]
    · rw [hu, hv]; ring
    · rw [hu, hv]; omega

/-- C2 (amended): for any two sub-pixel points `a`, `b` within the canvas
bounds, `line(a,b)` sets both endpoint pixels.  (The second half of the
original claim — that `line(b,a)` sets the identical pixel set — is false;
see the counterexample `line_reverse_differs`.) -/
theorem line_sets_both_endpoints (c : BrailleCanvas) (x0 y0 x1 y1 : Int)
    (hwf : c.Wf)
    (ha1 : 0 ≤ x0) (ha2 : x0 < c.pixel_width) (ha3 : 0 ≤ y0) (ha4 : y0 < c.pixel_height)
    (hb1 : 0 ≤ x1) (hb2 : x1 < c.pixel_width) (hb3 : 0 ≤ y1) (hb4 : y1 < c.pixel_height) :
    (c.line x0 y0 x1 y1).getPixel x0 y0 = true ∧
    (c.line x0 y0 x1 y1).getPixel x1 y1 = true :=
  line_endpoints_aux c x0 y0 x1 y1 hwf ha1 ha2 ha3 ha4 hb1 hb2 hb3 hb4

/-- C2 witness: on a 1×1-cell canvas (2×4 sub-pixels), `line((0,0),(1,2))`
sets both endpoints. -/
theorem line_sets_both_endpoints_witness :
    ((BrailleCanvas.create 1 1).line 0 0 1 2).getPixel 0 0 = true ∧
    ((BrailleCanvas.create 1 1).line 0 0 1 2).getPixel 1 2 = true :=
  line_sets_both_endpoints (BrailleCanvas.create 1 1) 0 0 1 2 (by decide)
    (by decide) (by decide) (by decide) (by decide)
    (by decide) (by decide) (by decide) (by decide)

/-- C2 counterexample: on a 1×1-cell canvas, `line((0,0),(1,2))` sets the
sub-pixel `(0,1)` but `line((1,2),(0,0))` does not, so the two calls do not
set the same pixel set (both endpoints are in bounds). -/
theorem line_reverse_differs :
    ((BrailleCanvas.create 1 1).line 0 0 1 2).getPixel 0 1 = true ∧
    ((BrailleCanvas.create 1 1).line 1 2 0 0).getPixel 0 1 = false := by
  decide

/-- C8: `set_pixel` with any out-of-bounds coordinate is a no-op — it returns
(in the Python source: leaves) the canvas completely unchanged, so every cell
mask is unchanged, and no error is raised. -/
theorem set_pixel_oob_noop (c : BrailleCanvas) (px py : Int)
    (h : px < 0 ∨ px ≥ c.pixel_width ∨ py < 0 ∨ py ≥ c.pixel_height) :
    c.set_pixel px py = c := by
  rw [BrailleCanvas.set_pixel, if_pos h]

/-- C8 witness: on a concrete 2×2 canvas, `set_pixel(-1, 0)` is a no-op. -/
theorem set_pixel_oob_noop_witness :
    (BrailleCanvas.create 2 2).set_pixel (-1) 0 = BrailleCanvas.create 2 2 :=
  set_pixel_oob_noop (BrailleCanvas.create 2 2) (-1) 0 (by decide)

/-! ### `_format_num` (plotter.py, lines 186-198)

Python floats are modelled as exact rationals; Python's `%e`/`%f` float
formatting (correctly rounded decimal, ties to even) is modelled by exact
decimal rounding of the rational value. -/

/-- Python string slicing `s[:n]` (by characters). -/
def pyTake (s : String) (n : Nat) : String := String.mk (s.data.take n)

theorem pyTake_length_le (s : String) (n : Nat) : (pyTake s n).length ≤ n := by
  show (s.data.take n).length ≤ n
  rw [List.length_take]
  omega

theorem pyTake_of_length_le (s : String) (n : Nat) (h : s.length ≤ n) :
    pyTake s n = s := by
  show String.mk (s.data.take n) = s
  rw [List.take_of_length_le h]

/-- Decimal digits of `n` left-padded with zeros to width `w`. -/
def padZeros (w : Nat) (n : Nat) : String :=
  let s := toString n
  if s.length < w then String.mk (List.replicate (w - s.length) '0') ++ s else s

/-- Python's `round`-to-integer: round half to even (also how `%e`/`%f`
resolve exact decimal ties). -/
def roundHalfEven (q : ℚ) : ℤ :=
  let f := ⌊q⌋
  let r := q - (f : ℚ)
  if r < 1/2 then f
  else if 1/2 < r then f + 1
  else if f % 2 = 0 then f else f + 1

/-- The decimal exponent of `a > 0`: the greatest `e` with `10^e ≤ a`.
The first guess from the numerator/denominator digit counts is off by at most
one, and the comparisons correct it. -/
def expOf10 (a : ℚ) : ℤ :=
  let e0 : ℤ := ((toString a.num.natAbs).length : ℤ) - ((toString a.den).length : ℤ)
  if (10:ℚ) ^ (e0 + 1) ≤ a then e0 + 1
  else if (10:ℚ) ^ e0 ≤ a then e0
  else e0 - 1

/-- Python `f"{v:.{prec}e}"`: scientific notation with `prec` decimal digits,
a signed exponent of at least two digits, ties to even. -/
def decSci (prec : Nat) (v : ℚ) : String :=
  if v = 0 then "0." ++ String.mk (List.replicate prec '0') ++ "e+00"
  else
    let a := |v|
    let e := expOf10 a
    let m := roundHalfEven (a * (10:ℚ) ^ ((prec : ℤ) - e))
    let me : ℤ × ℤ := if m = 10 ^ (prec + 1) then ((10:ℤ) ^ prec, e + 1) else (m, e)
    let digits := me.1.toNat
    let sign := if v < 0 then "-" else ""
    sign ++ toString (digits / 10 ^ prec) ++ "." ++ padZeros prec (digits % 10 ^ prec)
      ++ "e" ++ (if me.2 < 0 then "-" else "+") ++ padZeros 2 me.2.natAbs

/-- Python `f"{v:.{prec}f}"`: fixed-point with `prec` decimal digits, ties to
even. -/
def decFixed (prec : Nat) (v : ℚ) : String :=
  let n := (roundHalfEven (|v| * (10:ℚ) ^ prec)).toNat
  let sign := if v < 0 then "-" else ""
  sign ++ toString (n / 10 ^ prec) ++ "." ++ padZeros prec (n % 10 ^ prec)

/-- `_format_num(val, max_width)` (plotter.py lines 186-198).
`val == int(val)` holds exactly when the rational is an integer
(denominator 1); `f"{val:.2e}"`/`f"{val:.2f}"`/`f"{val:.1e}"` are `decSci 2`,
`decFixed 2` and `decSci 1`; `s[:max_width]` is `pyTake`. -/
def _format_num (val : ℚ) (max_width : Nat) : String :=
  let s :=
    if val = 0 then "0"
    else if |val| < 1/100 ∨ 1000000 ≤ |val| then decSci 2 val
    else if val.den = 1 then toString val.num
    else decFixed 2 val
  let s1 := if s.length > max_width then decSci 1 val else s
  pyTake s1 max_width

/-- C5: the numeric label formatter maps 0 to `"0"`; any value of magnitude
`< 0.01` or `≥ 1e6` to 2-decimal scientific notation; any exact integer in the
intermediate range to its integer form; any other value to 2 decimal places;
whenever the resulting string (from any of the three branches) exceeds the
allotted width it falls back to 1-decimal scientific notation hard-truncated
to the width (and the result never exceeds the width).  Concretely, at the
call-site width 8: `0 ↦ "0"`, `1500000 ↦ "1.50e+06"`, `3 ↦ "3"`,
`3.14159 ↦ "3.14"`, and the overflowing fixed-branch value
`-12345.68 ↦ "-1.2e+04"`. -/
theorem format_num_spec :
    _format_num 0 8 = "0" ∧
    _format_num 1500000 8 = "1.50e+06" ∧
    _format_num 3 8 = "3" ∧
    _format_num (314159/100000) 8 = "3.14" ∧
    (∀ (v : ℚ) (w : Nat), (_format_num v w).length ≤ w) ∧
    (∀ (v : ℚ) (w : Nat), v ≠ 0 → (|v| < 1/100 ∨ 1000000 ≤ |v|) →
      (decSci 2 v).length ≤ w → _format_num v w = decSci 2 v) ∧
    (∀ (v : ℚ) (w : Nat), ¬(|v| < 1/100 ∨ 1000000 ≤ |v|) → v.den = 1 →
      (toString v.num).length ≤ w → _format_num v w = toString v.num) ∧
    (∀ (v : ℚ) (w : Nat), ¬(|v| < 1/100 ∨ 1000000 ≤ |v|) → v.den ≠ 1 →
      (decFixed 2 v).length ≤ w → _format_num v w = decFixed 2 v) ∧
    (∀ (v : ℚ) (w : Nat), v ≠ 0 → (|v| < 1/100 ∨ 1000000 ≤ |v|) →
      (decSci 2 v).length > w → _format_num v w = pyTake (decSci 1 v) w) ∧
    (∀ (v : ℚ) (w : Nat), ¬(|v| < 1/100 ∨ 1000000 ≤ |v|) → v.den = 1 →
      (toString v.num).length > w → _format_num v w = pyTake (decSci 1 v) w) ∧
    (∀ (v : ℚ) (w : Nat), ¬(|v| < 1/100 ∨ 1000000 ≤ |v|) → v.den ≠ 1 →
      (decFixed 2 v).length > w → _format_num v w = pyTake (decSci 1 v) w) ∧
    _format_num (-1234568/100) 8 = "-1.2e+04" := by
  refine ⟨by decide, by decide, by decide, by decide, ?_, ?_, ?_, ?_, ?_, ?_, ?_, by decide⟩
  · intro v w
    simp only [_format_num]
    exact pyTake_length_le _ _
  · intro v w hv hcond hlen
    simp only [_format_num]
    rw [if_neg hv, if_pos hcond, if_neg (by omega)]
    exact pyTake_of_length_le _ _ hlen
  · intro v w hnot hden hlen
    have hv : v ≠ 0 := by
      intro h
      subst h
      exact hnot (Or.inl (by norm_num))
    simp only [_format_num]
    rw [if_neg hv, if_neg hnot, if_pos hden, if_neg (by omega)]
    exact pyTake_of_length_le _ _ hlen
  · intro v w hnot hden hlen
    have hv : v ≠ 0 := by
      intro h
      subst h
      exact hnot (Or.inl (by norm_num))
    simp only [_format_num]
    rw [if_neg hv, if_neg hnot, if_neg hden, if_neg (by omega)]
    exact pyTake_of_length_le _ _ hlen
  · intro v w hv hcond hlen
    simp only [_format_num]
    rw [if_neg hv, if_pos hcond, if_pos (by omega)]
  · intro v w hnot hden hlen
    have hv : v ≠ 0 := by
      intro h
      subst h
      exact hnot (Or.inl (by norm_num))
    simp only [_format_num]
    rw [if_neg hv, if_neg hnot, if_pos hden, if_pos (by omega)]
  · intro v w hnot hden hlen
    have hv : v ≠ 0 := by
      intro h
      subst h
      exact hnot (Or.inl (by norm_num))
    simp only [_format_num]
    rw [if_neg hv, if_neg hnot, if_neg hden, if_pos (by omega)]

/-- C5 witness: the 2-decimal scientific branch at `v = 1/200 = 0.005`
(magnitude below 0.01, fits in width 8), and the width-overflow fallback of
the 2-decimal fixed branch at `v = -12345.68` (9 characters), which yields
the truncated 1-decimal scientific form. -/
theorem format_num_spec_witness :
    _format_num (1/200) 8 = decSci 2 (1/200) ∧
    _format_num (-1234568/100) 8 = pyTake (decSci 1 (-1234568/100)) 8 :=
  ⟨format_num_spec.2.2.2.2.2.1 (1/200) 8 (by decide) (by decide) (by decide),
   format_num_spec.2.2.2.2.2.2.2.2.2.2.1 (-1234568/100) 8 (by decide) (by decide) (by decide)⟩

/-! ### `braille_plot` (plotter.py, lines 74-183) -/

/-- `np.min` over a data vector (callers guarantee non-emptiness; NumPy raises
on an empty array). -/
def npMin (l : List ℚ) : ℚ :=
  match l with
  | [] => 0
  | a :: t => t.foldl min a

/-- `np.max` over a data vector. -/
def npMax (l : List ℚ) : ℚ :=
  match l with
  | [] => 0
  | a :: t => t.foldl max a

/-- The degenerate-range correction (lines 104-109): `if max == min`, widen to
`[min-1, max+1]`.  Applied by `braille_plot` to the x range and to the y range
alike. -/
def widenIfDegenerate (lo hi : ℚ) : ℚ × ℚ :=
  if hi = lo then (lo - 1, hi + 1) else (lo, hi)

/-- Modelled from NumPy: `np.argsort(x)` returns the indices that sort `x`
ascending.  NumPy's default kind is quicksort (introsort), whose order on ties
is unspecified; ties are modelled here as keeping input order (stable). -/
def np_argsort (l : List ℚ) : List Nat :=
  (List.range l.length).mergeSort (fun i j => decide (l.getD i 0 ≤ l.getD j 0))

/-- `_place_label` (plotter.py, lines 201-206): write `label` into the
character list at (possibly negative) position `pos`, silently dropping
characters that fall outside the list. -/
def _place_label (char_list : List Char) (pos : Int) (label : String) : List Char :=
  (List.range label.length).foldl
    (fun cl (i : Nat) =>
      let idx := pos + (i : Int)
      if 0 ≤ idx ∧ idx < (cl.length : Int) then cl.set idx.toNat (label.data.getD i ' ')
      else cl)
    char_list

/-- Python right-alignment `f"{s:>{w}}"`. -/
def padLeft (s : String) (w : Nat) : String :=
  if s.length < w then String.mk (List.replicate (w - s.length) ' ') ++ s else s

/-- `braille_plot` (plotter.py, lines 74-183).  `y_label` is accepted and
unused, exactly as in the source. -/
def braille_plot (x y : List ℚ) (width height : Int) (x_label y_label : String)
    (plot_type : String) : List String :=
  let _ := y_label
  let y_axis_width : Int := 10
  let plot_width := width - y_axis_width - 1
  let plot_height := height
  if plot_width < 10 ∨ plot_height < 5 then
    ["Plot area too small. Increase width/height."]
  else
    let xr := widenIfDegenerate (npMin x) (npMax x)
    let x_min := xr.1
    let x_max := xr.2
    let yr := widenIfDegenerate (npMin y) (npMax y)
    let y_range := yr.2 - yr.1
    let y_min := yr.1 - y_range * (5/100)
    let y_max := yr.2 + y_range * (5/100)
    let canvas0 := BrailleCanvas.create plot_width.toNat plot_height.toNat
    let pw := canvas0.pixel_width - 1
    let ph := canvas0.pixel_height - 1
    let to_pixel : ℚ → ℚ → Int × Int := fun xv yv =>
      let px := roundHalfEven ((xv - x_min) / (x_max - x_min) * (pw : ℚ))
      let py := roundHalfEven ((1 - (yv - y_min) / (y_max - y_min)) * (ph : ℚ))
      (max 0 (min pw px), max 0 (min ph py))
    let canvas :=
      if plot_type = "line" then
        let order := np_argsort x
        let xs := order.map (fun i => x.getD i 0)
        let ys := order.map (fun i => y.getD i 0)
        (List.range xs.length).foldl
          (fun cv i =>
            let p := to_pixel (xs.getD i 0) (ys.getD i 0)
            let cv := cv.set_pixel p.1 p.2
            if 0 < i then
              let p0 := to_pixel (xs.getD (i - 1) 0) (ys.getD (i - 1) 0)
              cv.line p0.1 p0.2 p.1 p.2
            else cv)
          canvas0
      else
        (List.range x.length).foldl
          (fun cv i =>
            let p := to_pixel (x.getD i 0) (y.getD i 0)
            cv.set_pixel p.1 p.2)
          canvas0
    let braille_lines := canvas.render
    let hN := plot_height.toNat
    -- tick_map = dict(zip([0, h//2, h-1], [y_max, mid, y_min])): on duplicate
    -- rows the later entry wins, hence the check order below.
    let rowLabel : Nat → Option ℚ := fun row =>
      if row = hN - 1 then some y_min
      else if row = hN / 2 then some ((y_max + y_min) / 2)
      else if row = 0 then some y_max
      else none
    let lines := (List.range hN).map (fun row =>
      let gutter :=
        match rowLabel row with
        | some v =>
          padLeft (_format_num v (y_axis_width - 2).toNat) (y_axis_width - 1).toNat ++ " ┤"
        | none => String.mk (List.replicate (y_axis_width - 1).toNat ' ') ++ " │"
      gutter ++ braille_lines.getD row "")
    let lines := lines ++
      [String.mk (List.replicate (y_axis_width - 1).toNat ' ') ++ " └" ++
        String.mk (List.replicate plot_width.toNat '─')]
    let left_label := _format_num x_min 8
    let mid_label := _format_num ((x_min + x_max) / 2) 8
    let right_label := _format_num x_max 8
    let tick_str := List.replicate plot_width.toNat ' '
    let tick_str := _place_label tick_str 0 left_label
    let tick_str := _place_label tick_str (plot_width / 2 - (mid_label.length : Int) / 2) mid_label
    let tick_str := _place_label tick_str (plot_width - (right_label.length : Int)) right_label
    let lines := lines ++
      [String.mk (List.replicate y_axis_width.toNat ' ') ++ " " ++ String.mk tick_str]
    let lines := lines ++ [""]
    let center_x := y_axis_width + plot_width / 2 - (x_label.length : Int) / 2
    let lines := lines ++ [String.mk (List.replicate (max 0 center_x).toNat ' ') ++ x_label]
    lines

/-- C4 counterexample: for `xs=[1,2,3], ys=[3,1,2]`, `kind="scatter"`,
`width=30, height=10`, the chart block has `height + 4` rows (`height` plot
rows + axis rule + tick-label row + blank line + title line) — not the
`height + 3` plot/axis/tick rows plus blank and title (= `height + 5` rows in
total) that the claim states. -/
theorem scatter_demo_rows_counterexample :
    ¬ (braille_plot [1, 2, 3] [3, 1, 2] 30 10 "x" "y" "scatter").length = 10 + 3 + 2 := by
  decide

/-- C4 (amended): for `xs=[1,2,3], ys=[3,1,2]`, `kind="scatter"`,
`width=30, height=10`, the renderer returns (without raising) a chart block
whose row count equals `height + 2` (plot rows + axis rule + tick-label row)
plus the blank line and the title line (14 rows in total), and whose final
(title) row consists of padding followed by exactly the x-axis label passed
in. -/
theorem scatter_demo_shape :
    (braille_plot [1, 2, 3] [3, 1, 2] 30 10 "x" "y" "scatter").length = 10 + 2 + 2 ∧
    (braille_plot [1, 2, 3] [3, 1, 2] 30 10 "x" "y" "scatter").getD 13 "" =
      String.mk (List.replicate 19 ' ') ++ "x" := by
  decide

/-! Minimal and maximal data bounds never coincide after the degenerate-range
correction, so the renderer's scaling denominators are nonzero. -/

theorem foldl_min_le_foldl_max :
    ∀ (t : List ℚ) (a b : ℚ), a ≤ b → t.foldl min a ≤ t.foldl max b := by
  intro t
  induction t with
  | nil => intro a b h; exact h
  | cons c t ih =>
    intro a b h
    exact ih _ _ (le_trans (min_le_left a c) (le_trans h (le_max_left b c)))

theorem npMin_le_npMax (l : List ℚ) (h : l ≠ []) : npMin l ≤ npMax l := by
  match l with
  | [] => exact absurd rfl h
  | a :: t => exact foldl_min_le_foldl_max t a a le_rfl

/-- C9: with all x values equal the renderer does not divide by zero: the
degenerate-range correction widens `[m, m]` to `[m-1, m+1]` (so `[4, 6]` for
`xs = [5,5,5]`), the same rule is applied to the y range by `braille_plot`,
and after the correction the effective range of any non-empty data vector has
`min < max` (a nonzero scaling denominator).  Concretely, the rendered x-tick
row for `xs = [5,5,5]` shows the widened edge labels 4 and 6. -/
theorem degenerate_range_widening :
    widenIfDegenerate (npMin [5, 5, 5]) (npMax [5, 5, 5]) = (4, 6) ∧
    (∀ m : ℚ, widenIfDegenerate m m = (m - 1, m + 1)) ∧
    (∀ l : List ℚ, l ≠ [] →
      (widenIfDegenerate (npMin l) (npMax l)).1 < (widenIfDegenerate (npMin l) (npMax l)).2) ∧
    (braille_plot [5, 5, 5] [1, 2, 3] 30 10 "x" "y" "scatter").getD 11 "" =
      "           4        5        6" := by
  refine ⟨by decide, ?_, ?_, by decide⟩
  · intro m
    simp [widenIfDegenerate]
  · intro l hl
    have hle := npMin_le_npMax l hl
    rw [widenIfDegenerate]
    split
    · next heq => simp only; linarith
    · next hne => simp only; exact lt_of_le_of_ne hle (fun h => hne h.symm)

/-- C9 witness: the non-degenerate conjunct applied at the concrete vector
`[5,5,5]`. -/
theorem degenerate_range_widening_witness :
    (widenIfDegenerate (npMin [5, 5, 5]) (npMax [5, 5, 5])).1 <
      (widenIfDegenerate (npMin [5, 5, 5]) (npMax [5, 5, 5])).2 :=
  degenerate_range_widening.2.2.1 [5, 5, 5] (by decide)

/-! ### DataLoader (src/python/data_loader.py)

Numeric cell values are modelled as `ℚ`.  The pandas/h5py handles are
modelled as snapshots of what the underlying library would answer. -/

/-- A rows/cols metadata field: an integer, or the `"?"` marker used when the
value cannot be determined. -/
inductive MetaVal
  | num (n : Int)
  | unknown
  deriving Repr, DecidableEq

structure TableDesc where
  name : String
  rows : MetaVal
  cols : MetaVal
  deriving Repr, DecidableEq

/-- The per-key behaviour of `store.get_storer(key)` and its metadata
attributes inside the `try` block of `_get_table_list_pandas` (lines
124-134): `throws` models any exception raised in that block; `avail` carries
the optional `nrows`/`ncols` attributes and the optional
`attrs.non_index_axes` list. -/
inductive StorerMeta
  | throws
  | avail (nrows : Option Int) (ncols : Option Int)
      (nonIndexAxes : Option (List (Int × List String)))
  deriving Repr, DecidableEq

/-- An n-dimensional numpy array: C-order flat data plus shape; a compound
dtype is carried as the per-field columns (`arr.dtype.names` / `arr[col]`). -/
structure NDArr where
  shape : List Nat
  fields : Option (List (String × List ℚ))
  data : List ℚ
  deriving Repr, DecidableEq

/-- A pandas column label: integer (as for `pd.DataFrame(arr)` and `{0: arr}`)
or string (field / `"value"`). -/
inductive ColName
  | idx (n : Nat)
  | str (s : String)
  deriving Repr, DecidableEq

/-- A pandas DataFrame: ordered labelled columns plus the length of the index
(`nrows`).  The index length is carried explicitly because a frame keeps its
rows even with zero columns (`pd.DataFrame(np.empty((4, 0)))` has shape
`(4, 0)`). -/
structure DF where
  nrows : Nat
  cols : List (ColName × List ℚ)
  deriving Repr, DecidableEq

def DF.numCols (df : DF) : Nat := df.cols.length

def DF.numRows (df : DF) : Nat := df.nrows

inductive H5Obj
  | dataset (arr : NDArr)
  | group
  deriving Repr, DecidableEq

/-- An open h5py file: its nodes in `visititems` order, keyed by path without
the leading slash. -/
structure H5File where
  items : List (String × H5Obj)
  deriving Repr, DecidableEq

def H5File.find (f : H5File) (key : String) : Option H5Obj :=
  (f.items.find? (fun it => it.1 == key)).map (fun it => it.2)

/-- The storer object consumed by `_pandas_read_table_fast` (lines 159-183):
`table = getattr(storer, "table", None)` together with the outcome of
`table.read()` (`none` = it raised); `readArray` likewise for
`hasattr(storer, "_read_array")` and `storer._read_array()`. -/
structure FastStorer where
  table : Option (Option NDArr)
  readArray : Option (Option NDArr)

/-- An open `pd.HDFStore`: its keys and, per key, the storer metadata, the
frame `store[key]`, and the fast-read storer (`none` = `get_storer` raised). -/
structure PandasStore where
  keys : List String
  meta : String → StorerMeta
  frames : String → DF
  storers : String → Option FastStorer

inductive BackendTag
  | pandas
  | h5py
  deriving Repr, DecidableEq

/-- The `DataLoader` session state (`__init__`, lines 21-25). -/
structure DataLoader where
  store : Option PandasStore
  h5file : Option H5File
  backend : Option BackendTag
  filepath : Option String

/-- `DataLoader.close` (lines 31-47): close errors on the underlying handles
are swallowed (logged only); all state is reset unconditionally. -/
def DataLoader.close (st : DataLoader) : DataLoader :=
  let _ := st
  { store := none, h5file := none, backend := none, filepath := none }

/-- Python's `name.lstrip("/")`. -/
def lstripSlash (name : String) : String :=
  String.mk (name.data.dropWhile (fun ch => ch == '/'))

/-- The per-key body of `_get_table_list_pandas` (lines 124-140): on any
exception both fields degrade to `"?"`; otherwise `nrows` comes from the
`nrows` attribute and `ncols` from the `ncols` attribute, else from
`attrs.non_index_axes[0][1]` when the axes list is non-empty. -/
def describeStorer (key : String) (m : StorerMeta) : TableDesc :=
  match m with
  | .throws => { name := key, rows := .unknown, cols := .unknown }
  | .avail nrows ncols nia =>
    let r := match nrows with
      | some n => MetaVal.num n
      | none => MetaVal.unknown
    let c := match ncols with
      | some n => MetaVal.num n
      | none =>
        match nia with
        | some [] => MetaVal.unknown
        | some (a :: _) => MetaVal.num (a.2.length : Int)
        | none => MetaVal.unknown
    { name := key, rows := r, cols := c }

/-- `_get_table_list_pandas` (lines 121-142): one descriptor per key, each
computed from that key's own storer metadata only. -/
def _get_table_list_pandas (ps : PandasStore) : List TableDesc :=
  ps.keys.map (fun key => describeStorer key (ps.meta key))

/-- `_get_table_list_h5py` (lines 144-157): every leaf dataset, named by its
slash-rooted path, with `rows = shape[0]` (1 for rank 0) and
`cols = shape[1]` (1 for rank ≤ 1). -/
def _get_table_list_h5py (f : H5File) : List TableDesc :=
  f.items.filterMap (fun it =>
    match it.2 with
    | .dataset arr =>
      some { name := "/" ++ it.1
             rows := .num (if 1 ≤ arr.shape.length then (arr.shape.getD 0 0 : Int) else 1)
             cols := .num (if 2 ≤ arr.shape.length then (arr.shape.getD 1 0 : Int) else 1) }
    | .group => none)

/-- `list_tables` (lines 88-95).  (With a live backend the corresponding
handle is always set; the `none` fallbacks mirror the dispatch falling
through.) -/
def DataLoader.list_tables (st : DataLoader) : List TableDesc :=
  match st.backend with
  | some .h5py =>
    match st.h5file with
    | some f => _get_table_list_h5py f
    | none => []
  | some .pandas =>
    match st.store with
    | some ps => _get_table_list_pandas ps
    | none => []
  | none => []

/-- `pd.DataFrame` of a 2-D C-order array of shape `(r, c)`: `r` index rows
and integer column labels `0..c-1`, column `j` holding entries
`data[i*c + j]`. -/
def dfOfMatrix (r c : Nat) (data : List ℚ) : DF :=
  ⟨r, (List.range c).map
    (fun j => (ColName.idx j, (List.range r).map (fun i => data.getD (i * c + j) 0)))⟩

/-- NumPy's inference of the `-1` dimension in `arr.reshape(n, -1)` applied
to an array of `total` elements: the inferred axis is `total / n` when `n` is
nonzero and divides `total`; otherwise the reshape raises `ValueError` — in
particular always when `n = 0`, since a zero product over the known
dimensions leaves `-1` uninferable. -/
def npReshapeInfer (n total : Nat) : Except String Nat :=
  if n = 0 then .error "cannot reshape array"
  else if total % n = 0 then .ok (total / n)
  else .error "cannot reshape array"

/-- `_h5py_read_dataset` (lines 185-218): strip the leading slash, answer
`None` for missing names and non-dataset nodes, then convert by dtype/rank —
compound → one column per field; rank 0 → single `"value"` column; rank 1 →
single column `0`; rank 2 → direct mapping; rank ≥ 3 →
`arr.reshape(arr.shape[0], -1)`, flattening all trailing dimensions into the
column axis.  The reshape's `ValueError` (zero leading dimension)
propagates out of the function, hence the `Except` layer. -/
def _h5py_read_dataset (f : H5File) (name : String) : Except String (Option DF) :=
  let key := lstripSlash name
  match f.find key with
  | none => .ok none
  | some .group => .ok none
  | some (.dataset arr) =>
    match arr.fields with
    | some flds =>
      .ok (some ⟨(flds.head?.map (fun fld => fld.2.length)).getD 0,
        flds.map (fun fld => (ColName.str fld.1, fld.2))⟩)
    | none =>
      match arr.shape with
      | [] => .ok (some ⟨1, [(ColName.str "value", [arr.data.getD 0 0])]⟩)
      | [n] => .ok (some ⟨n, [(ColName.idx 0, arr.data)]⟩)
      | [r, c] => .ok (some (dfOfMatrix r c arr.data))
      | r :: rest =>
        match npReshapeInfer r (r :: rest).prod with
        | .error e => .error e
        | .ok c => .ok (some (dfOfMatrix r c arr.data))

/-- `_h5py_read_dataset_raw` (lines 220-230). -/
def _h5py_read_dataset_raw (f : H5File) (name : String) : Option NDArr :=
  match f.find (lstripSlash name) with
  | some (.dataset arr) => some arr
  | some .group => none
  | none => none

/-- `_pandas_read_table_fast` (lines 159-183). -/
def _pandas_read_table_fast (ps : PandasStore) (name : String) : Option NDArr :=
  match ps.storers name with
  | none => none
  | some storer =>
    match storer.table with
    | some res => res
    | none =>
      match storer.readArray with
      | some res => res
      | none => none

/-- `load_table` (lines 97-107).  `Except.ok none` is the `None` return;
`Except.error` is an exception escaping the call (only the h5py branch has
one: the rank ≥ 3 reshape `ValueError`). -/
def DataLoader.load_table (st : DataLoader) (name : String) :
    Except String (Option DF) :=
  match st.backend with
  | some .pandas =>
    match st.store with
    | some ps => if name ∈ ps.keys then .ok (some (ps.frames name)) else .ok none
    | none => .ok none
  | some .h5py =>
    match st.h5file with
    | some f => _h5py_read_dataset f name
    | none => .ok none
  | none => .ok none

/-- `load_table_fast` (lines 109-119). -/
def DataLoader.load_table_fast (st : DataLoader) (name : String) : Option NDArr :=
  match st.backend with
  | some .pandas =>
    match st.store with
    | some ps => if name ∈ ps.keys then _pandas_read_table_fast ps name else none
    | none => none
  | some .h5py =>
    match st.h5file with
    | some f => _h5py_read_dataset_raw f name
    | none => none
  | none => none

/-- The run-time environment of one `open(path)` call: whether
`pd.HDFStore(path)` raises (`none`) or yields a store, and whether
`h5py.File(path)` raises or yields a file. -/
structure FileEnv where
  pandasOpen : Option PandasStore
  h5pyOpen : Option H5File

/-- The `if not pandas_ok:` fallback block of `open` (lines 76-84): commit to
h5py, or set `h5file = None` and raise `RuntimeError`. -/
def h5pyFallback (st : DataLoader) (env : FileEnv) :
    DataLoader × Except String (List TableDesc) :=
  match env.h5pyOpen with
  | some f =>
    let st := { st with h5file := some f, backend := some BackendTag.h5py }
    (st, .ok st.list_tables)
  | none => ({ st with h5file := none }, .error "Failed to open HDF5")

/-- `DataLoader.open` (lines 49-86): close any current handles, remember the
path, try `pd.HDFStore`; commit to the pandas backend only when the store has
at least one key (otherwise the handle is closed and not retained); fall back
to h5py; return `list_tables()` on success. -/
def DataLoader.openFile (st : DataLoader) (env : FileEnv) (filepath : String) :
    DataLoader × Except String (List TableDesc) :=
  let st := st.close
  let st := { st with filepath := some filepath }
  match env.pandasOpen with
  | some ps =>
    if ps.keys ≠ [] then
      let st := { st with store := some ps, backend := some BackendTag.pandas }
      (st, .ok st.list_tables)
    else
      h5pyFallback st env
  | none => h5pyFallback st env

/-- C1: `open()` first attempts the pandas backend and commits to it exactly
when it opens with at least one table; otherwise (open failure, or zero
tables — with that handle released, i.e. not retained in the session) it
attempts h5py; if that also fails the call surfaces an error and the
session's backend remains `None`. -/
theorem open_backend_fallback (st : DataLoader) (env : FileEnv) (fp : String) :
    (∀ ps, env.pandasOpen = some ps → ps.keys ≠ [] →
      (st.openFile env fp).1.backend = some BackendTag.pandas ∧
      (st.openFile env fp).1.store = some ps ∧
      (st.openFile env fp).1.h5file = none ∧
      (st.openFile env fp).2 = Except.ok (st.openFile env fp).1.list_tables) ∧
    ((∀ ps, env.pandasOpen = some ps → ps.keys = []) →
      ∀ f, env.h5pyOpen = some f →
      (st.openFile env fp).1.backend = some BackendTag.h5py ∧
      (st.openFile env fp).1.h5file = some f ∧
      (st.openFile env fp).1.store = none ∧
      (st.openFile env fp).2 = Except.ok (st.openFile env fp).1.list_tables) ∧
    ((∀ ps, env.pandasOpen = some ps → ps.keys = []) → env.h5pyOpen = none →
      (st.openFile env fp).1.backend = none ∧
      ∃ msg, (st.openFile env fp).2 = Except.error msg) := by
  refine ⟨?_, ?_, ?_⟩
  · intro ps hps hne
    simp [DataLoader.openFile, DataLoader.close, hps, hne]
  · intro hempty f hf
    cases henv : env.pandasOpen with
    | none =>
      simp [DataLoader.openFile, DataLoader.close, h5pyFallback, henv, hf]
    | some ps =>
      have hkeys : ps.keys = [] := hempty ps henv
      simp [DataLoader.openFile, DataLoader.close, h5pyFallback, henv, hkeys, hf]
  · intro hempty hno
    cases henv : env.pandasOpen with
    | none =>
      simp [DataLoader.openFile, DataLoader.close, h5pyFallback, henv, hno]
    | some ps =>
      have hkeys : ps.keys = [] := hempty ps henv
      simp [DataLoader.openFile, DataLoader.close, h5pyFallback, henv, hkeys, hno]

/-- A pandas store with one populated table, for the witnesses. -/
def psOne : PandasStore :=
  { keys := ["/a"]
    meta := fun _ => .avail (some 3) (some 2) none
    frames := fun _ => ⟨0, []⟩
    storers := fun _ => none }

/-- A raw hierarchy with one 2×2 dataset, for the witnesses. -/
def h5One : H5File := ⟨[("g/d", .dataset ⟨[2, 2], none, [1, 2, 3, 4]⟩)]⟩

def envPandasOk : FileEnv := ⟨some psOne, none⟩

def envH5Only : FileEnv := ⟨none, some h5One⟩

def envBothFail : FileEnv := ⟨none, none⟩

def dlClosed : DataLoader := ⟨none, none, none, none⟩

/-- C1 witness: the three cases exercised at concrete environments — pandas
store with one table, pandas failure with h5py success, and both failing. -/
theorem open_backend_fallback_witness :
    ((dlClosed.openFile envPandasOk "f").1.backend = some BackendTag.pandas ∧
      (dlClosed.openFile envPandasOk "f").1.store = some psOne ∧
      (dlClosed.openFile envPandasOk "f").1.h5file = none ∧
      (dlClosed.openFile envPandasOk "f").2 =
        Except.ok (dlClosed.openFile envPandasOk "f").1.list_tables) ∧
    ((dlClosed.openFile envH5Only "f").1.backend = some BackendTag.h5py ∧
      (dlClosed.openFile envH5Only "f").1.h5file = some h5One ∧
      (dlClosed.openFile envH5Only "f").1.store = none ∧
      (dlClosed.openFile envH5Only "f").2 =
        Except.ok (dlClosed.openFile envH5Only "f").1.list_tables) ∧
    ((dlClosed.openFile envBothFail "f").1.backend = none ∧
      ∃ msg, (dlClosed.openFile envBothFail "f").2 = Except.error msg) :=
  ⟨(open_backend_fallback dlClosed envPandasOk "f").1 psOne rfl (by decide),
   (open_backend_fallback dlClosed envH5Only "f").2.1 (fun _ h => nomatch h) h5One rfl,
   (open_backend_fallback dlClosed envBothFail "f").2.2 (fun _ h => nomatch h) rfl⟩

/-! Shape lemmas for `dfOfMatrix` -/

theorem dfOfMatrix_numCols (r c : Nat) (data : List ℚ) :
    (dfOfMatrix r c data).numCols = c := by
  simp [dfOfMatrix, DF.numCols]

theorem dfOfMatrix_numRows (r c : Nat) (data : List ℚ) :
    (dfOfMatrix r c data).numRows = r := rfl

/-- C6 (amended): on the raw (h5py) backend, a plain-dtype dataset of rank
≥ 3 with a nonzero leading dimension loads as a table keeping the leading
dimension as rows and flattening all trailing dimensions (zero-sized ones
included) into a single column axis.  (With a zero leading dimension the
underlying `reshape(0, -1)` raises instead; see
`h5py_rank3_zero_rows_counterexample`.) -/
theorem h5py_rank3_flatten (f : H5File) (name : String) (arr : NDArr)
    (hfind : f.find (lstripSlash name) = some (.dataset arr))
    (hfields : arr.fields = none)
    (r : Nat) (rest : List Nat)
    (hshape : arr.shape = r :: rest)
    (hrank : 2 ≤ rest.length)
    (hr : 0 < r) :
    ∃ df, _h5py_read_dataset f name = .ok (some df) ∧
      df.numRows = r ∧ df.numCols = rest.prod := by
  obtain ⟨a, b, t, rfl⟩ : ∃ a b t, rest = a :: b :: t := by
    match rest, hrank with
    | a :: b :: t, _ => exact ⟨a, b, t, rfl⟩
  refine ⟨dfOfMatrix r ((a :: b :: t).prod) arr.data, ?_, ?_, ?_⟩
  · rw [_h5py_read_dataset]
    rw [hfind]
    simp only
    rw [hfields]
    simp only
    rw [hshape]
    simp only [npReshapeInfer, List.prod_cons]
    rw [if_neg (by omega), if_pos (Nat.mul_mod_right r _)]
    rw [Nat.mul_div_cancel_left _ hr]
  · exact dfOfMatrix_numRows _ _ _
  · exact dfOfMatrix_numCols _ _ _

/-- A file holding a rank-3 dataset of shape (4,3,2), for the C6 witness. -/
def h5Cube : H5File :=
  ⟨[("cube", .dataset ⟨[4, 3, 2], none, (List.range 24).map (fun n => (n : ℚ))⟩)]⟩

/-- C6 witness: the shape-(4,3,2) dataset loads as a 4-row, 6-column table. -/
theorem h5py_rank3_flatten_witness :
    ∃ df, _h5py_read_dataset h5Cube "/cube" = .ok (some df) ∧
      df.numRows = 4 ∧ df.numCols = 6 :=
  h5py_rank3_flatten h5Cube "/cube" ⟨[4, 3, 2], none, (List.range 24).map (fun n => (n : ℚ))⟩
    (by decide) rfl 4 [3, 2] rfl (by decide) (by decide)

/-- A file holding a rank-3 dataset with a zero-length leading dimension, for
the C6 counterexample. -/
def h5CubeEmpty : H5File := ⟨[("empty", .dataset ⟨[0, 3, 2], none, []⟩)]⟩

/-- C6 counterexample: at shape (0,3,2) — rank 3, so covered by the claim's
"every dataset of rank ≥ 3" — the source's `arr.reshape(arr.shape[0], -1)`
is `reshape(0, -1)`, which raises `ValueError`; `loadTable` therefore raises
instead of returning a 0-row table, refuting the claim as stated. -/
theorem h5py_rank3_zero_rows_counterexample :
    _h5py_read_dataset h5CubeEmpty "/empty" = .error "cannot reshape array" := by
  rfl

/-- C7: a structured-backend listing returns exactly one descriptor per
table; each descriptor is a function of that table's own metadata only (so
one table's metadata failure cannot abort or alter the rest), and a table
whose metadata access throws degrades both fields to the unknown marker. -/
theorem pandas_listing_resilience (ps : PandasStore) :
    (_get_table_list_pandas ps).length = ps.keys.length ∧
    (∀ i, i < ps.keys.length →
      (_get_table_list_pandas ps).getD i ⟨"", .unknown, .unknown⟩ =
        describeStorer (ps.keys.getD i "") (ps.meta (ps.keys.getD i ""))) ∧
    (∀ key, ps.meta key = .throws →
      describeStorer key (ps.meta key) =
        { name := key, rows := .unknown, cols := .unknown }) := by
  refine ⟨by simp [_get_table_list_pandas], ?_, ?_⟩
  · intro i hi
    rw [_get_table_list_pandas]
    rw [List.getD_eq_getElem?_getD, List.getElem?_map]
    rw [List.getD_eq_getElem?_getD]
    rw [List.getElem?_eq_getElem hi]
    simp [List.getD_eq_getElem?_getD, List.getElem?_eq_getElem hi]
  · intro key hk
    rw [hk]
    rfl

/-- A pandas store with three tables whose middle table's metadata access
throws, for the C7 witness. -/
def psThree : PandasStore :=
  { keys := ["/a", "/b", "/c"]
    meta := fun k => if k = "/b" then .throws else .avail (some 10) (some 4) none
    frames := fun _ => ⟨0, []⟩
    storers := fun _ => none }

/-- C7 witness: with three tables and the middle one's metadata throwing, the
listing still has three descriptors and the failing table reads
unknown/unknown. -/
theorem pandas_listing_resilience_witness :
    (_get_table_list_pandas psThree).length = psThree.keys.length ∧
    describeStorer "/b" (psThree.meta "/b") =
      { name := "/b", rows := .unknown, cols := .unknown } :=
  ⟨(pandas_listing_resilience psThree).1,
   (pandas_listing_resilience psThree).2.2 "/b" (by decide)⟩

/-- C10: with the session closed (no backend), every read returns the
empty/absent result without raising: `list_tables()` is the empty list,
`load_table` returns `None` (and does not raise: `Except.ok`), and
`load_table_fast` returns `None` for every name. -/
theorem closed_session_reads (st : DataLoader) (h : st.backend = none)
    (name : String) :
    st.list_tables = [] ∧ st.load_table name = Except.ok none ∧
      st.load_table_fast name = none := by
  refine ⟨?_, ?_, ?_⟩ <;>
    simp [DataLoader.list_tables, DataLoader.load_table, DataLoader.load_table_fast, h]

/-- C10 witness: the freshly-constructed (closed) loader at name `"t"`. -/
theorem closed_session_reads_witness :
    dlClosed.list_tables = [] ∧ dlClosed.load_table "t" = Except.ok none ∧
      dlClosed.load_table_fast "t" = none :=
  closed_session_reads dlClosed rfl "t"

end VIME
